import Mathlib

/-!
Shallow embedding of `plugins/modules/nutanix_image.py` (Nutanix image
reconciliation module).  Remote API interactions are modelled by an explicit
environment (`Env`) holding the entity listings and the task/uuid responses of
the collaborator client, and every client call performed by the module is
recorded in a trace of `ApiCall`s.  `module.fail_json` (and the uncaught
Python exceptions reachable in the source) are modelled with `Except.error`;
`module.exit_json` returns the result record.  Machine-level concerns
(pagination payload contents, HTTP transport, authentication) carry no
decision logic in the source and are outside the embedded core, as is the
parameter parsing done by `AnsibleModule` itself.
-/

namespace NutanixImage

/-- Python truthiness of an optional string parameter: `None` and `""` are
falsy, every other string is truthy. -/
def optTruthy : Option String → Bool
  | none => false
  | some s => s ≠ ""

/-- Python `str` applied to a list of strings (`repr` with single quotes),
as used by `"Could not find cluster(s) with name {0}".format(str(clusters))`. -/
def pyStrList (l : List String) : String :=
  "[" ++ String.intercalate ", " (l.map (fun s => "'" ++ s ++ "'")) ++ "]"

/-- An image entity as seen by the module in `list_entities('images', ...)`
responses: the source reads `status.name`, `status.resources.image_type`,
`status.get("description")` (which may be absent) and `metadata.uuid`. -/
structure Entity where
  name : String
  uuid : String
  image_type : String
  description : Option String
deriving DecidableEq

/-- A VM entity as read in `create_image_spec`: only
`status.resources.disk_list[..].uuid` of entities matching the name filter. -/
structure VmEntity where
  name : String
  disk_uuids : List String
deriving DecidableEq

/-- A cluster entity: `status.name` and `metadata.uuid`. -/
structure ClusterEntity where
  name : String
  uuid : String
deriving DecidableEq

/-- The module parameters consumed by the embedded core, after `AnsibleModule`
parsing (`module.params.get(...)`): absent optional parameters are `none`.
`image_checksum` is the `(value, algorithm)` pair of the checksum dict. -/
structure Params where
  image_name : String
  image_type : Option String
  image_url : Option String
  vm_disk : Option String
  vm_disk_uuid : Option String
  image_uuid : Option String
  image_description : Option String
  image_checksum : Option (String × String)
  clusters : Option (List String)
deriving DecidableEq

/-- The `image_state` dict of booleans built by `get_existing_image_state`. -/
structure ImageState where
  match_state : Bool
  match_name : Bool
  match_type : Bool
  match_description : Bool
deriving DecidableEq

/-- The all-`False` initial `image_state` dict. -/
def initImageState : ImageState :=
  { match_state := false, match_name := false,
    match_type := false, match_description := false }

/-- The entity loop of `get_existing_image_state`: on a name match the uuid is
(re)recorded and, when type or description also matches, a classification flag
is set and the loop breaks; a bare name match keeps scanning. -/
def scanImages (image_name : String) (image_type image_description : Option String) :
    List Entity → ImageState → Option String → ImageState × Option String
  | [], st, uuid => (st, uuid)
  | e :: rest, st, uuid =>
    if image_name == e.name then
      let st1 := { st with match_name := true }
      let uuid1 := some e.uuid
      if image_type == some e.image_type && image_description == e.description then
        ({ st1 with match_state := true }, uuid1)
      else if image_type == some e.image_type then
        ({ st1 with match_type := true }, uuid1)
      else if image_description == e.description then
        ({ st1 with match_description := true }, uuid1)
      else
        scanImages image_name image_type image_description rest st1 uuid1
    else
      scanImages image_name image_type image_description rest st uuid

/-- `get_existing_image_state`: list the images and scan them against the
desired name, type and description. -/
def get_existing_image_state (p : Params) (images : List Entity) :
    ImageState × Option String :=
  scanImages p.image_name p.image_type p.image_description images initImageState none

/-- Characters Python's `urlsplit` accepts inside a URL scheme. -/
def isSchemeChar (c : Char) : Bool :=
  c.isAlpha || c.isDigit || c == '+' || c == '-' || c == '.'

/-- The `path` component of `urllib.parse.urlparse` for the URL shapes the
module can meet: drop the fragment (after the first `#`), strip a valid
`scheme:` prefix, strip a `//netloc` part (up to the next `/` or `?`), and
drop the query (after the first `?`). -/
def urlPath (url : String) : String :=
  let cs := url.toList
  let cs := cs.takeWhile (fun c => c ≠ '#')
  let cs :=
    match cs.findIdx? (fun c => c == ':') with
    | some i =>
      if 0 < i && (cs.take i).all isSchemeChar then cs.drop (i + 1) else cs
    | none => cs
  let cs :=
    if cs.take 2 = ['/', '/'] then
      (cs.drop 2).dropWhile (fun c => c ≠ '/' && c ≠ '?')
    else cs
  String.mk (cs.takeWhile (fun c => c ≠ '?'))

/-- `urlparse(image_url).path` as evaluated by the source: CPython coerces a
`None` argument to the empty input, so the path of `urlparse(None)` is empty
(the source reaches this when auto-detecting a type with no URL given). -/
def urlparsePath : Option String → String
  | none => ""
  | some u => urlPath u

/-- Index of the last occurrence of a character, if any. -/
def lastIndexOf (cs : List Char) (c : Char) : Option Nat :=
  (List.range cs.length).foldl
    (fun acc i => if cs.getD i ' ' == c then some i else acc) none

/-- The extension returned by `os.path.splitext` (posix rules): the suffix
starting at the last dot that lies after the last `/`, provided at least one
non-dot character stands between them; otherwise the empty string. -/
def splitextExt (p : String) : String :=
  let cs := p.toList
  match lastIndexOf cs '.' with
  | none => ""
  | some d =>
    let s := match lastIndexOf cs '/' with
      | none => 0
      | some si => si + 1
    if s ≤ d && (List.range (d - s)).any (fun j => cs.getD (s + j) '.' ≠ '.') then
      String.mk (cs.drop d)
    else ""

/-- The create request body (`CREATE_PAYLOAD` after the json round-trip), with
exactly the fields the source writes.  `initial_placement_ref_list` is the
list of cluster uuids of the `{'kind': 'cluster', 'uuid': ...}` entries;
`none` models the key being deleted.  `data_source_reference` holds the
vm-disk uuid of the `{"kind": "vm_disk", "uuid": ...}` entry. -/
structure CreatePayload where
  name : String
  metadata_name : String
  image_type : String
  initial_placement_ref_list : Option (List String)
  source_uri : Option String
  data_source_reference : Option String
  checksum : Option (String × String)
  description : String
deriving DecidableEq

/-- The parsed `CREATE_PAYLOAD` template before any field is rewritten. -/
def basePayload : CreatePayload :=
  { name := "IMAGE_NAME", metadata_name := "IMAGE_NAME",
    image_type := "IMAGE_TYPE", initial_placement_ref_list := some [],
    source_uri := none, data_source_reference := none,
    checksum := none, description := "" }

/-- The fields of an image spec fetched with `get_image` that `_update` reads
or rewrites: `metadata.uuid`, `spec.resources.image_type` and
`spec.description` (the `status` section it deletes is not modelled). -/
structure UpdateSpec where
  metadata_uuid : String
  image_type : Option String
  description : String
deriving DecidableEq

/-- One client call of the module, recorded in order of issue. -/
inductive ApiCall where
  | listImages
  | listVms
  | listClusters
  | createImage (spec : CreatePayload)
  | getImage (uuid : Option String)
  | updateImage (uuid : Option String) (spec : UpdateSpec)
  | deleteImage (uuid : String)
  | taskPoll (task : String)
deriving DecidableEq

/-- A call that mutates remote state: create, update or delete. -/
def ApiCall.isMutating : ApiCall → Bool
  | .createImage _ => true
  | .updateImage _ _ => true
  | .deleteImage _ => true
  | _ => false

/-- A create call. -/
def ApiCall.isCreate : ApiCall → Bool
  | .createImage _ => true
  | _ => false

/-- An update call. -/
def ApiCall.isUpdate : ApiCall → Bool
  | .updateImage _ _ => true
  | _ => false

/-- A delete call. -/
def ApiCall.isDelete : ApiCall → Bool
  | .deleteImage _ => true
  | _ => false

/-- The delete calls of a trace. -/
def deleteCalls (tr : List ApiCall) : List ApiCall :=
  tr.filter ApiCall.isDelete

/-- The create calls of a trace. -/
def createCalls (tr : List ApiCall) : List ApiCall :=
  tr.filter ApiCall.isCreate

/-- The update calls of a trace. -/
def updateCalls (tr : List ApiCall) : List ApiCall :=
  tr.filter ApiCall.isUpdate

/-- The descriptions carried by the update specs submitted in a trace. -/
def submittedUpdateDescs (tr : List ApiCall) : List String :=
  tr.filterMap fun c => match c with | .updateImage _ s => some s.description | _ => none

/-- The remote collaborator: entity listings and the responses of the mutating
calls and of task polling.  `createResult` is the `(task_uuid, image_uuid)`
pair of `create_image`; `taskResult t` is `task_poll`'s return for task `t`
(`none` on success, the failure message otherwise). -/
structure Env where
  images : List Entity
  vms : List VmEntity
  clusters : List ClusterEntity
  createResult : String × String
  updateTask : String
  deleteTask : String → String
  getImage : Option String → UpdateSpec
  taskResult : String → Option String

/-- The result record the module reports through `exit_json`; `result_init`
fields plus the keys the source adds (`ansible_facts` stays constant and is
not modelled). -/
structure ModuleResult where
  changed : Bool
  failed : Bool
  msg : Option String
  image_uuid : Option String
  image_count : Option Nat
  image_state : Option ImageState
deriving DecidableEq

/-- The seed result dict of `main`: `changed = False`. -/
def initResult : ModuleResult :=
  { changed := false, failed := false, msg := none,
    image_uuid := none, image_count := none, image_state := none }

/-- Python dict insertion `d[k] = v`: update the value in place when the key
exists, append a new entry otherwise (insertion order preserved). -/
def dictInsert (d : List (String × String)) (k v : String) : List (String × String) :=
  if d.any (fun kv => kv.1 == k) then
    d.map (fun kv => if kv.1 == k then (k, v) else kv)
  else d ++ [(k, v)]

/-- The inner entity loop of the cluster-resolution step, for one requested
name: every cluster entity with that name writes `dict[name] = uuid` and
appends a placement entry. -/
def clusterInner (name : String) (ents : List ClusterEntity)
    (acc : List (String × String) × List String) :
    List (String × String) × List String :=
  ents.foldl
    (fun acc e =>
      if e.name == name then (dictInsert acc.1 name e.uuid, acc.2 ++ [e.uuid])
      else acc)
    acc

/-- The outer loop of the cluster-resolution step over the requested names,
building `cluster_name_and_uuid` and the placement-entry uuids. -/
def clusterResolve (names : List String) (ents : List ClusterEntity) :
    List (String × String) × List String :=
  names.foldl (fun acc name => clusterInner name ents acc) ([], [])

/-- `for cluster_name in cluster_name_and_uuid: clusters.remove(cluster_name)`
— remove the first occurrence of each resolved key from the requested list. -/
def removeEach (keys : List String) (l : List String) : List String :=
  keys.foldl (fun acc k => acc.erase k) l

/-- The `# Get cluster UUID` block of `create_image_spec`: on a truthy
`clusters` parameter, list the clusters, resolve names, and either fail with
the destructively built name list or attach the placement entries; on a falsy
parameter, delete the placement key. -/
def clustersStep (p : Params) (env : Env) (pl : CreatePayload) :
    List ApiCall × Except String CreatePayload :=
  match p.clusters with
  | some cs =>
    if cs ≠ [] then
      if (clusterResolve cs env.clusters).1.length ≠ cs.length then
        ([ApiCall.listClusters],
         .error ("Could not find cluster(s) with name " ++
           pyStrList (removeEach ((clusterResolve cs env.clusters).1.map Prod.fst) cs)))
      else
        ([ApiCall.listClusters],
         .ok { pl with
               initial_placement_ref_list :=
                 some ((pl.initial_placement_ref_list.getD []) ++
                       (clusterResolve cs env.clusters).2) })
    else ([], .ok { pl with initial_placement_ref_list := none })
  | none => ([], .ok { pl with initial_placement_ref_list := none })

/-- The image-type auto-detection block: keep a truthy explicit type, else
derive it from the URL path extension or fail. -/
def detectImageType (p : Params) : Except String String :=
  if optTruthy p.image_type then .ok (p.image_type.getD "")
  else
    let ext := splitextExt (urlparsePath p.image_url)
    if ext == ".iso" then .ok "ISO_IMAGE"
    else if ext == ".qcow2" then .ok "DISK_IMAGE"
    else .error "Unable to identify image_type, specify the value manually"

/-- The VM-disk resolution block: with a truthy `vm_disk` and no truthy
`vm_disk_uuid`, list VMs filtered by name and index the first disk of the
first entity (the uncaught `IndexError` of an empty listing is an error);
otherwise pass `vm_disk_uuid` through. -/
def vmDiskStep (p : Params) (env : Env) :
    List ApiCall × Except String (Option String) :=
  if optTruthy p.vm_disk && !optTruthy p.vm_disk_uuid then
    match env.vms.filter (fun v => v.name == p.vm_disk.getD "") with
    | [] => ([ApiCall.listVms], .error "IndexError: list index out of range")
    | v :: _ =>
      match v.disk_uuids with
      | [] => ([ApiCall.listVms], .error "IndexError: list index out of range")
      | d :: _ => ([ApiCall.listVms], .ok (some d))
  else ([], .ok p.vm_disk_uuid)

/-- The source and checksum blocks of `create_image_spec`: a truthy resolved
vm-disk uuid takes precedence and forces `DISK_IMAGE`, else a truthy URL sets
the (detected or explicit) type and the source uri; the checksum is attached
only alongside a truthy URL. -/
def sourcePayload (p : Params) (vdu : Option String) (image_type : String) :
    CreatePayload :=
  let pl := basePayload
  let pl :=
    if optTruthy vdu then
      { pl with data_source_reference := vdu, image_type := "DISK_IMAGE" }
    else if optTruthy p.image_url then
      { pl with image_type := image_type, source_uri := p.image_url }
    else pl
  if optTruthy p.image_url && p.image_checksum.isSome then
    { pl with checksum := p.image_checksum }
  else pl

/-- The closing block of `create_image_spec`: write the name into both the
metadata and the spec, and the description only when truthy. -/
def finishPayload (p : Params) (pl : CreatePayload) : CreatePayload :=
  let pl := { pl with metadata_name := p.image_name, name := p.image_name }
  if optTruthy p.image_description then
    { pl with description := p.image_description.getD "" }
  else pl

/-- `create_image_spec`: type detection, VM-disk resolution, source branch,
checksum, cluster placement, then name and description. -/
def create_image_spec (p : Params) (env : Env) :
    List ApiCall × Except String CreatePayload :=
  match detectImageType p with
  | .error e => ([], .error e)
  | .ok image_type =>
    match vmDiskStep p env with
    | (tr, .error e) => (tr, .error e)
    | (tr, .ok vdu) =>
      match clustersStep p env (sourcePayload p vdu image_type) with
      | (tr2, .error e) => (tr ++ tr2, .error e)
      | (tr2, .ok pl) => (tr ++ tr2, .ok (finishPayload p pl))

/-- The update spec `_update` submits: the fetched spec with `image_type`
overwritten by the raw parameter and the description overwritten by the
supplied description, or cleared to the empty string when it is not truthy. -/
def updateSpecOf (p : Params) (fetched : UpdateSpec) : UpdateSpec :=
  if optTruthy p.image_description then
    { fetched with image_type := p.image_type,
                   description := p.image_description.getD "" }
  else
    { fetched with image_type := p.image_type, description := "" }

/-- `_update`: resolve the target uuid (explicit `image_uuid` parameter takes
precedence), fetch the spec, rewrite type and description, submit the update
and poll its task. -/
def update (p : Params) (env : Env) (image_uuid : Option String)
    (tr : List ApiCall) : List ApiCall × ModuleResult :=
  let image_uuid := if optTruthy p.image_uuid then p.image_uuid else image_uuid
  let fetched := env.getImage image_uuid
  let tr := tr ++ [ApiCall.getImage image_uuid]
  let image_uuid :=
    if optTruthy p.image_description then image_uuid else some fetched.metadata_uuid
  let spec := updateSpecOf p fetched
  let tr := tr ++ [ApiCall.updateImage image_uuid spec]
  let task := env.updateTask
  let tr := tr ++ [ApiCall.taskPoll task]
  match env.taskResult task with
  | some m => (tr, { initResult with failed := true, msg := some m })
  | none => (tr, { initResult with changed := true })

/-- `_create`: build the spec, read the existing image state, then either
no-op (`match_state`), update (any other flag set — the loop over the
`image_state` dict items), or create and poll. -/
def create (p : Params) (env : Env) : List ApiCall × Except String ModuleResult :=
  match create_image_spec p env with
  | (tr, .error e) => (tr, .error e)
  | (tr, .ok spec) =>
    let tr := tr ++ [ApiCall.listImages]
    let sres := get_existing_image_state p env.images
    let st := sres.1
    let image_uuid := sres.2
    if st.match_state then
      (tr, .ok { initResult with image_state := some st })
    else if st.match_name || st.match_type || st.match_description then
      let ur := update p env image_uuid tr
      (ur.1, .ok ur.2)
    else
      let tr := tr ++ [ApiCall.createImage spec]
      let task := env.createResult.1
      let tr := tr ++ [ApiCall.taskPoll task]
      match env.taskResult task with
      | some m => (tr, .ok { initResult with failed := true, msg := some m })
      | none =>
        (tr, .ok { initResult with image_uuid := some env.createResult.2,
                                   changed := true })

/-- The entity loop of `_delete`: collect uuids and the running count of name
matches, returning early (first component `true`) as soon as the count
exceeds one. -/
def deleteLoop (name : String) :
    List Entity → List String → Nat → Option String →
    Bool × List String × Nat × Option String
  | [], uuids, count, lastU => (false, uuids, count, lastU)
  | e :: rest, uuids, count, lastU =>
    let next :=
      if name == e.name then (uuids ++ [e.uuid], count + 1, some e.uuid)
      else (uuids, count, lastU)
    if next.2.1 > 1 then (true, next)
    else deleteLoop name rest next.1 next.2.1 next.2.2

/-- `_delete`: with a truthy name, list images and scan; fail on a duplicate
name with zero delete calls, return unchanged on zero matches, and on exactly
one match mark `changed`, issue the delete, and poll a truthy task uuid.  A
falsy name fails with no message.  (`task_uuid_list` is never appended to in
the source, so the multi-task polling block at the end is unreachable and the
function falls through to `return result`.) -/
def delete (p : Params) (env : Env) : List ApiCall × ModuleResult :=
  if p.image_name ≠ "" then
    let tr := [ApiCall.listImages]
    let lres := deleteLoop p.image_name env.images [] 0 none
    if lres.1 then
      let m := "Found multiple images with name " ++ p.image_name
      (tr, { initResult with failed := true, msg := some m })
    else
      let uuids := lres.2.1
      let count := lres.2.2.1
      let lastU := lres.2.2.2
      if count == 0 then (tr, initResult)
      else if uuids.isEmpty then (tr, initResult)
      else if count == 1 then
        let r := { initResult with image_count := some 1, changed := true }
        let u := lastU.getD ""
        let tr := tr ++ [ApiCall.deleteImage u]
        let task := env.deleteTask u
        if task ≠ "" then
          let tr := tr ++ [ApiCall.taskPoll task]
          match env.taskResult task with
          | some m => (tr, { r with failed := true, msg := some m })
          | none => (tr, r)
        else (tr, r)
      else (tr, initResult)
  else ([], { initResult with failed := true })

/-- `main`: in check mode the module exits with the seed result before the API
client is even constructed; otherwise dispatch on `state`.  A `state` other
than `present`/`absent` leaves `result` unbound and raises `NameError` at
`exit_json(**result)`. -/
def mainRun (p : Params) (checkMode : Bool) (state : String) (env : Env) :
    List ApiCall × Except String ModuleResult :=
  if checkMode then ([], .ok initResult)
  else if state == "present" then create p env
  else if state == "absent" then
    let dres := delete p env
    (dres.1, .ok dres.2)
  else ([], .error "NameError: name result is not defined")

/-! ## Generic lemmas about the scan and the traces -/

/-- Entities whose name differs from the target are skipped by the scan. -/
theorem scanImages_append_no_match (n : String) (ty d : Option String)
    (es tail : List Entity) (st : ImageState) (u : Option String)
    (h : ∀ e ∈ es, (n == e.name) = false) :
    scanImages n ty d (es ++ tail) st u = scanImages n ty d tail st u := by
  induction es generalizing st u with
  | nil => rfl
  | cons e rest ih =>
    have he : (n == e.name) = false := h e (by simp)
    simp only [List.cons_append, scanImages, he]
    exact ih st u (fun x hx => h x (by simp [hx]))

/-- A scan over entities none of which matches the name returns its
accumulator unchanged. -/
theorem scanImages_no_match (n : String) (ty d : Option String)
    (es : List Entity) (st : ImageState) (u : Option String)
    (h : ∀ e ∈ es, (n == e.name) = false) :
    scanImages n ty d es st u = (st, u) := by
  have := scanImages_append_no_match n ty d es [] st u h
  simpa using this

/-- The scan never clears the `match_name` flag. -/
theorem scanImages_name_mono (n : String) (ty d : Option String)
    (es : List Entity) (st : ImageState) (u : Option String)
    (h : st.match_name = true) :
    ((scanImages n ty d es st u).1).match_name = true := by
  induction es generalizing st u with
  | nil => simpa [scanImages]
  | cons e rest ih =>
    simp only [scanImages]
    split
    · split
      · simp
      · split
        · simp
        · split
          · simp
          · exact ih _ _ rfl
    · exact ih _ _ h

/-- Any classification flag set by the scan comes with the name flag: the
invariant that `match_state`, `match_type` or `match_description` implies
`match_name` is preserved. -/
theorem scanImages_flags_imp_name (n : String) (ty d : Option String)
    (es : List Entity) (st : ImageState) (u : Option String)
    (h : (st.match_state || st.match_type || st.match_description) = true →
         st.match_name = true) :
    ((scanImages n ty d es st u).1.match_state ||
     (scanImages n ty d es st u).1.match_type ||
     (scanImages n ty d es st u).1.match_description) = true →
    ((scanImages n ty d es st u).1).match_name = true := by
  induction es generalizing st u with
  | nil => simpa [scanImages] using h
  | cons e rest ih =>
    simp only [scanImages]
    split
    · split
      · intro _; simp
      · split
        · intro _; simp
        · split
          · intro _; simp
          · exact ih _ _ (fun _ => rfl)
    · exact ih _ _ h

/-- The trace of `vmDiskStep` holds listing calls only. -/
theorem vmDiskStep_trace (p : Params) (env : Env) :
    (vmDiskStep p env).1 = [] ∨ (vmDiskStep p env).1 = [ApiCall.listVms] := by
  unfold vmDiskStep
  split
  · split
    · simp
    · split <;> simp
  · simp

/-- The trace of `clustersStep` holds listing calls only. -/
theorem clustersStep_trace (p : Params) (env : Env) (pl : CreatePayload) :
    (clustersStep p env pl).1 = [] ∨ (clustersStep p env pl).1 = [ApiCall.listClusters] := by
  unfold clustersStep
  split
  · split
    · split <;> simp
    · simp
  · simp

/-- `create_image_spec` performs no mutating call. -/
theorem create_image_spec_not_mutating (p : Params) (env : Env) :
    ∀ c ∈ (create_image_spec p env).1, c.isMutating = false := by
  unfold create_image_spec
  cases hdet : detectImageType p with
  | error e => simp
  | ok ty =>
    dsimp only
    rcases hvm : vmDiskStep p env with ⟨tr, res⟩
    have htr : tr = [] ∨ tr = [ApiCall.listVms] := by
      have h := vmDiskStep_trace p env
      rw [hvm] at h
      exact h
    cases res with
    | error e =>
      dsimp only
      intro c hc
      rcases htr with h | h <;> subst h <;> simp at hc
      subst hc; rfl
    | ok vdu =>
      dsimp only
      rcases hcs : clustersStep p env (sourcePayload p vdu ty) with ⟨tr2, res2⟩
      have htr2 : tr2 = [] ∨ tr2 = [ApiCall.listClusters] := by
        have h := clustersStep_trace p env (sourcePayload p vdu ty)
        rw [hcs] at h
        exact h
      have hmem : ∀ c ∈ tr ++ tr2, c.isMutating = false := by
        intro c hc
        simp only [List.mem_append] at hc
        rcases hc with hc | hc
        · rcases htr with h | h <;> subst h <;> simp at hc
          subst hc; rfl
        · rcases htr2 with h | h <;> subst h <;> simp at hc
          subst hc; rfl
      cases res2 <;> simpa using hmem

/-- `None` is falsy. -/
@[simp] theorem optTruthy_none : optTruthy none = false := rfl

/-- A nonempty string is truthy. -/
theorem optTruthy_some (s : String) (h : s ≠ "") : optTruthy (some s) = true := by
  simp [optTruthy, h]

/-- An error from the spec builder propagates unchanged through `_create`. -/
theorem create_of_spec_error (p : Params) (env : Env) (tr : List ApiCall)
    (e : String) (h : create_image_spec p env = (tr, Except.error e)) :
    create p env = (tr, Except.error e) := by
  unfold create
  rw [h]

/-- With a falsy explicit type, detection derives `ISO_IMAGE` from a `.iso`
URL path extension. -/
theorem detect_iso (p : Params) (u : String)
    (ht : optTruthy p.image_type = false) (hu : p.image_url = some u)
    (hext : splitextExt (urlPath u) = ".iso") :
    detectImageType p = Except.ok "ISO_IMAGE" := by
  unfold detectImageType
  rw [ht, hu]
  simp [urlparsePath, hext]

/-- With a falsy explicit type, detection derives `DISK_IMAGE` from a
`.qcow2` URL path extension. -/
theorem detect_qcow2 (p : Params) (u : String)
    (ht : optTruthy p.image_type = false) (hu : p.image_url = some u)
    (hext : splitextExt (urlPath u) = ".qcow2") :
    detectImageType p = Except.ok "DISK_IMAGE" := by
  unfold detectImageType
  rw [ht, hu]
  simp [urlparsePath, hext]

/-- With a falsy explicit type and a URL path extension that is neither
`.iso` nor `.qcow2`, detection fails with the unidentifiable-type message. -/
theorem detect_fails (p : Params) (u : String)
    (ht : optTruthy p.image_type = false) (hu : p.image_url = some u)
    (h1 : splitextExt (urlPath u) ≠ ".iso")
    (h2 : splitextExt (urlPath u) ≠ ".qcow2") :
    detectImageType p =
      Except.error "Unable to identify image_type, specify the value manually" := by
  unfold detectImageType
  rw [ht, hu]
  simp [urlparsePath, h1, h2]

/-- With no vm-disk source, no clusters and a truthy URL, the spec builder
succeeds with the URL source payload. -/
theorem create_image_spec_url (p : Params) (env : Env) (ity : String)
    (hdet : detectImageType p = Except.ok ity)
    (hvd : p.vm_disk = none) (hvdu : p.vm_disk_uuid = none)
    (hcl : p.clusters = none) (hurl : optTruthy p.image_url = true) :
    create_image_spec p env =
      ([], Except.ok (finishPayload p
        { basePayload with image_type := ity, source_uri := p.image_url,
                           checksum := p.image_checksum,
                           initial_placement_ref_list := none })) := by
  unfold create_image_spec vmDiskStep clustersStep sourcePayload
  rw [hdet, hvd, hvdu, hcl]
  cases hck : p.image_checksum <;> simp [hurl, hck, basePayload]

/-- `finishPayload` never touches the image type. -/
theorem finishPayload_image_type (p : Params) (pl : CreatePayload) :
    (finishPayload p pl).image_type = pl.image_type := by
  unfold finishPayload
  split <;> rfl

/-! ## Claim theorems -/

/-- A detection error makes the spec builder fail before any call. -/
theorem create_image_spec_detect_error (p : Params) (env : Env) (e : String)
    (h : detectImageType p = Except.error e) :
    create_image_spec p env = ([], Except.error e) := by
  unfold create_image_spec
  rw [h]

/-- A default environment for concrete witnesses. -/
def env0 : Env :=
  { images := [], vms := [], clusters := [],
    createResult := ("task1", "uuid-new"), updateTask := "task2",
    deleteTask := fun _ => "task3",
    getImage := fun _ =>
      { metadata_uuid := "uuid-up", image_type := some "DISK_IMAGE", description := "" },
    taskResult := fun _ => none }

/-- A base parameter set for concrete witnesses: URL source, explicit type. -/
def params0 : Params :=
  { image_name := "img", image_type := some "ISO_IMAGE",
    image_url := some "http://server/isos/img.iso", vm_disk := none,
    vm_disk_uuid := none, image_uuid := none, image_description := none,
    image_checksum := none, clusters := none }

/-- C5: with no explicit image type, the builder derives the type from the
URL path extension — `.iso` gives `ISO_IMAGE`, `.qcow2` gives `DISK_IMAGE`,
and any other extension makes the pass fail with the unidentifiable-type
message before any call is made at all. -/
theorem image_type_autodetect (p : Params) (env : Env) (u : String)
    (ht : optTruthy p.image_type = false) (hu : p.image_url = some u)
    (hvd : p.vm_disk = none) (hvdu : p.vm_disk_uuid = none)
    (hcl : p.clusters = none) :
    (splitextExt (urlPath u) = ".iso" →
       ∃ pl, (create_image_spec p env).2 = Except.ok pl ∧ pl.image_type = "ISO_IMAGE")
    ∧ (splitextExt (urlPath u) = ".qcow2" →
       ∃ pl, (create_image_spec p env).2 = Except.ok pl ∧ pl.image_type = "DISK_IMAGE")
    ∧ (splitextExt (urlPath u) ≠ ".iso" → splitextExt (urlPath u) ≠ ".qcow2" →
       create p env =
         ([], Except.error "Unable to identify image_type, specify the value manually")) := by
  refine ⟨fun hext => ?_, fun hext => ?_, fun h1 h2 => ?_⟩
  · have hu0 : u ≠ "" := by
      intro h0
      rw [h0] at hext
      exact absurd hext (by decide)
    have hurl : optTruthy p.image_url = true := by
      rw [hu]; exact optTruthy_some u hu0
    have hspec := create_image_spec_url p env "ISO_IMAGE"
      (detect_iso p u ht hu hext) hvd hvdu hcl hurl
    exact ⟨_, by rw [hspec], by rw [finishPayload_image_type]⟩
  · have hu0 : u ≠ "" := by
      intro h0
      rw [h0] at hext
      exact absurd hext (by decide)
    have hurl : optTruthy p.image_url = true := by
      rw [hu]; exact optTruthy_some u hu0
    have hspec := create_image_spec_url p env "DISK_IMAGE"
      (detect_qcow2 p u ht hu hext) hvd hvdu hcl hurl
    exact ⟨_, by rw [hspec], by rw [finishPayload_image_type]⟩
  · exact create_of_spec_error p env []
      "Unable to identify image_type, specify the value manually"
      (create_image_spec_detect_error p env _ (detect_fails p u ht hu h1 h2))

/-- `params0` with the explicit type removed, triggering auto-detection. -/
def paramsNoType : Params := { params0 with image_type := none }

/-- `paramsNoType` with a URL whose extension identifies no type. -/
def paramsRawUrl : Params :=
  { paramsNoType with image_url := some "http://server/isos/img.raw" }

/-- C5 witness: a concrete `.iso` URL derives `ISO_IMAGE`, and a concrete
`.raw` URL fails with the unidentifiable-type message and no call. -/
theorem image_type_autodetect_witness :
    (∃ pl, (create_image_spec paramsNoType env0).2 =
        Except.ok pl ∧ pl.image_type = "ISO_IMAGE")
    ∧ create paramsRawUrl env0 =
        ([], Except.error "Unable to identify image_type, specify the value manually") :=
  ⟨(image_type_autodetect paramsNoType env0
      "http://server/isos/img.iso" rfl rfl rfl rfl rfl).1 (by decide),
   (image_type_autodetect paramsRawUrl env0
      "http://server/isos/img.raw" rfl rfl rfl rfl rfl).2.2 (by decide) (by decide)⟩

/-- The delete scan leaves its accumulators unchanged over non-matching
entities, as long as the running count has not exceeded one. -/
theorem deleteLoop_no_match (name : String) (es : List Entity)
    (h : ∀ e ∈ es, (name == e.name) = false) :
    ∀ uuids c lastU, c ≤ 1 →
      deleteLoop name es uuids c lastU = (false, uuids, c, lastU) := by
  induction es with
  | nil => intro uuids c lastU _; rfl
  | cons e rest ih =>
    intro uuids c lastU hc
    have he : (name == e.name) = false := h e (by simp)
    have hgt : ¬(c > 1) := by omega
    simp only [deleteLoop, he, Bool.false_eq_true, if_false, hgt]
    exact ih (fun x hx => h x (by simp [hx])) uuids c lastU hc

/-- With at least two name matches remaining, the delete scan returns early
with the multiple-images flag. -/
theorem deleteLoop_multi (name : String) (es : List Entity) :
    ∀ uuids c lastU, c ≤ 1 →
      2 ≤ c + (es.filter (fun e => name == e.name)).length →
      (deleteLoop name es uuids c lastU).1 = true := by
  induction es with
  | nil =>
    intro uuids c lastU hc habs
    simp at habs
    omega
  | cons e rest ih =>
    intro uuids c lastU hc htotal
    by_cases he : (name == e.name) = true
    · simp only [List.filter_cons, he, if_true, List.length_cons] at htotal
      simp only [deleteLoop, he, if_true]
      by_cases hgt : c + 1 > 1
      · simp [hgt]
      · have hc1 : c + 1 ≤ 1 := by omega
        simp only [hgt, if_false]
        exact ih _ _ _ hc1 (by omega)
    · have he' : (name == e.name) = false := by
        cases hb : (name == e.name) <;> simp_all
      simp only [List.filter_cons, he', Bool.false_eq_true, if_false] at htotal
      have hgt : ¬(c > 1) := by omega
      simp only [deleteLoop, he', Bool.false_eq_true, if_false, hgt]
      exact ih _ _ _ hc htotal

/-- With exactly one name match, the delete scan finishes with a count of one
and that entity's uuid. -/
theorem deleteLoop_single (name : String) (es : List Entity) (e0 : Entity)
    (h : es.filter (fun e => name == e.name) = [e0]) :
    deleteLoop name es [] 0 none = (false, [e0.uuid], 1, some e0.uuid) := by
  induction es with
  | nil => simp at h
  | cons e rest ih =>
    by_cases he : (name == e.name) = true
    · simp only [List.filter_cons, he, if_true] at h
      have he0 : e = e0 := by
        injection h
      have hrest : rest.filter (fun e => name == e.name) = [] := by
        injection h
      subst he0
      have hnomatch : ∀ x ∈ rest, (name == x.name) = false := by
        intro x hx
        have := List.filter_eq_nil_iff.mp hrest x hx
        cases hb : (name == x.name) <;> simp_all
      simp only [deleteLoop, he, if_true]
      have hgt : ¬((0 : Nat) + 1 > 1) := by omega
      simp only [hgt, if_false]
      simpa using deleteLoop_no_match name rest hnomatch [e.uuid] 1 (some e.uuid) (by omega)
    · have he' : (name == e.name) = false := by
        cases hb : (name == e.name) <;> simp_all
      simp only [List.filter_cons, he', Bool.false_eq_true, if_false] at h
      have hgt : ¬((0 : Nat) > 1) := by omega
      simp only [deleteLoop, he', Bool.false_eq_true, if_false, hgt]
      exact ih h

/-- The failed result record carrying a message. -/
def failedMsgResult (m : String) : ModuleResult :=
  { initResult with failed := true, msg := some m }

/-- The result record of a single-image deletion whose task failed. -/
def deleteTaskFailedResult (m : String) : ModuleResult :=
  { initResult with changed := true, failed := true, msg := some m, image_count := some 1 }

/-- C2 (amended): for a nonempty requested name, two or more name matches
make the pass fail immediately with the ambiguity message and zero delete
calls; a request with an empty (falsy) name fails with no message at all —
and likewise issues zero delete calls. -/
theorem absent_duplicate_guard (p : Params) (env : Env) :
    (p.image_name ≠ "" →
       2 ≤ (env.images.filter (fun e => p.image_name == e.name)).length →
       delete p env =
         ([ApiCall.listImages],
          failedMsgResult ("Found multiple images with name " ++ p.image_name)))
    ∧ (p.image_name = "" →
       delete p env = ([], { initResult with failed := true })) := by
  constructor
  · intro hname hcount
    have hmulti : (deleteLoop p.image_name env.images [] 0 none).1 = true :=
      deleteLoop_multi p.image_name env.images [] 0 none (by omega) (by omega)
    unfold delete
    rw [if_pos hname]
    dsimp only
    rw [hmulti]
    simp [failedMsgResult]
  · intro hname
    unfold delete
    rw [if_neg (by simp [hname])]

/-- C2 counterexample: with the empty string as the requested name and two
existing images bearing that name, the pass fails with `msg` absent — not
with the ambiguity message the claim requires (it does still issue zero
delete calls). -/
theorem absent_empty_name_counterexample :
    2 ≤ ((
      [{ name := "", uuid := "u1", image_type := "ISO_IMAGE", description := none },
       { name := "", uuid := "u2", image_type := "ISO_IMAGE", description := none }]
        : List Entity).filter (fun e => "" == e.name)).length
    ∧ delete { params0 with image_name := "" }
        { env0 with images :=
          [{ name := "", uuid := "u1", image_type := "ISO_IMAGE", description := none },
           { name := "", uuid := "u2", image_type := "ISO_IMAGE", description := none }] } =
        ([], { initResult with failed := true })
    ∧ ({ initResult with failed := true } : ModuleResult).msg = none := by
  refine ⟨by decide, ?_, rfl⟩
  rfl

/-- C2 witness: two concrete images named `img` make a nonempty-name absent
pass fail with the ambiguity message and no delete call. -/
theorem absent_duplicate_guard_witness :
    delete params0
      { env0 with images :=
        [{ name := "img", uuid := "u1", image_type := "ISO_IMAGE", description := none },
         { name := "img", uuid := "u2", image_type := "ISO_IMAGE", description := none }] } =
      ([ApiCall.listImages],
       failedMsgResult "Found multiple images with name img") :=
  (absent_duplicate_guard params0
    { env0 with images :=
      [{ name := "img", uuid := "u1", image_type := "ISO_IMAGE", description := none },
       { name := "img", uuid := "u2", image_type := "ISO_IMAGE", description := none }] }).1
    (by decide) (by decide)

/-- C9: for an absent pass with exactly one name match whose delete task then
fails, the outcome carries `changed = true` together with `failed = true` and
the task's failure message — `changed` is set before polling and is not
reverted. -/
theorem absent_single_task_failure (p : Params) (env : Env) (e0 : Entity)
    (m : String) (hname : p.image_name ≠ "")
    (hone : env.images.filter (fun e => p.image_name == e.name) = [e0])
    (htask : env.deleteTask e0.uuid ≠ "")
    (hfail : env.taskResult (env.deleteTask e0.uuid) = some m) :
    delete p env =
      ([ApiCall.listImages, ApiCall.deleteImage e0.uuid,
        ApiCall.taskPoll (env.deleteTask e0.uuid)],
       deleteTaskFailedResult m) := by
  have hl := deleteLoop_single p.image_name env.images e0 hone
  unfold delete
  rw [if_pos hname]
  dsimp only
  rw [hl]
  simp [htask, hfail, deleteTaskFailedResult]

/-- C9 witness: a concrete single-match absent pass whose delete task fails
reports `changed = true`, `failed = true` and the task message. -/
theorem absent_single_task_failure_witness :
    delete params0
      { env0 with
        images := [{ name := "img", uuid := "u1", image_type := "ISO_IMAGE",
                     description := none }],
        taskResult := fun _ => some "task failed" } =
      ([ApiCall.listImages, ApiCall.deleteImage "u1", ApiCall.taskPoll "task3"],
       deleteTaskFailedResult "task failed") :=
  absent_single_task_failure params0
    { env0 with
      images := [{ name := "img", uuid := "u1", image_type := "ISO_IMAGE",
                   description := none }],
      taskResult := fun _ => some "task failed" }
    { name := "img", uuid := "u1", image_type := "ISO_IMAGE", description := none }
    "task failed" (by decide) (by decide) (by decide) rfl

/-- The break condition of the state-matching scan: a name-matching entity
stops the loop exactly when its type or its description also matches. -/
def breakMatch (ty d : Option String) (e : Entity) : Bool :=
  (ty == some e.image_type) || (d == e.description)

/-- The last element of a cons cell. -/
theorem getLast?_cons_eq {α : Type} (a : α) (l : List α) :
    (a :: l).getLast? = some ((l.getLast?).getD a) := by
  induction l generalizing a with
  | nil => rfl
  | cons b t ih =>
    rw [List.getLast?_cons_cons, ih b]
    simp [ih]

/-- The uuid computed by the scan, for any accumulators: the uuid of the
first entity that matches the name and breaks, else the uuid of the last
name-matching entity, else the accumulator. -/
theorem scanImages_uuid_aux (n : String) (ty d : Option String)
    (es : List Entity) :
    ∀ st u, (scanImages n ty d es st u).2 =
      match es.find? (fun e => n == e.name && breakMatch ty d e) with
      | some e => some e.uuid
      | none =>
        match (es.filter (fun e => n == e.name)).getLast? with
        | some e => some e.uuid
        | none => u := by
  induction es with
  | nil => intro st u; rfl
  | cons e rest ih =>
    intro st u
    by_cases hn : (n == e.name) = true
    · by_cases htm : (ty == some e.image_type) = true
      · by_cases hdm : (d == e.description) = true
        · simp [scanImages, List.find?_cons, breakMatch, hn, htm, hdm]
        · simp [scanImages, List.find?_cons, breakMatch, hn, htm, hdm]
      · by_cases hdm : (d == e.description) = true
        · simp [scanImages, List.find?_cons, breakMatch, hn, htm, hdm]
        · have htm' : (ty == some e.image_type) = false := by simpa using htm
          have hdm' : (d == e.description) = false := by simpa using hdm
          have hscan : scanImages n ty d (e :: rest) st u =
              scanImages n ty d rest { st with match_name := true } (some e.uuid) := by
            simp [scanImages, hn, htm', hdm']
          have hfind : (e :: rest).find?
                (fun e => n == e.name && breakMatch ty d e) =
              rest.find? (fun e => n == e.name && breakMatch ty d e) := by
            simp [List.find?_cons, breakMatch, hn, htm', hdm']
          rw [hscan, ih, hfind,
              List.filter_cons_of_pos (by simpa using hn), getLast?_cons_eq]
          cases hf : rest.find? (fun e => n == e.name && breakMatch ty d e) <;>
            cases hl : (rest.filter (fun e => n == e.name)).getLast? <;>
              simp [hf, hl]
    · have hn' : (n == e.name) = false := by simpa using hn
      have hscan : scanImages n ty d (e :: rest) st u =
          scanImages n ty d rest st u := by
        simp [scanImages, hn']
      have hfind : (e :: rest).find?
            (fun e => n == e.name && breakMatch ty d e) =
          rest.find? (fun e => n == e.name && breakMatch ty d e) := by
        simp [List.find?_cons, hn']
      rw [hscan, ih, hfind, List.filter_cons_of_neg (by simpa using hn')]

/-- C7 (amended): the match result carries the uuid of the first entity that
matches the name and additionally matches type or description; when no
name-matching entity matches further fields, it carries the uuid of the
*last* name-matching entity in listing order, and no uuid when no entity
shares the name. -/
theorem matched_uuid_characterization (p : Params) (images : List Entity) :
    (∀ e, images.find?
        (fun e => p.image_name == e.name &&
          breakMatch p.image_type p.image_description e) = some e →
        (get_existing_image_state p images).2 = some e.uuid)
    ∧ (images.find?
        (fun e => p.image_name == e.name &&
          breakMatch p.image_type p.image_description e) = none →
        (get_existing_image_state p images).2 =
          ((images.filter (fun e => p.image_name == e.name)).getLast?).map
            Entity.uuid) := by
  unfold get_existing_image_state
  rw [scanImages_uuid_aux]
  constructor
  · intro e hfind
    rw [hfind]
  · intro hfind
    rw [hfind]
    cases hlast : (images.filter (fun e => p.image_name == e.name)).getLast? <;> simp

/-- C7 counterexample: with two entities both matching the desired name only,
the reported identifier is the second entity's uuid, not the first's, so the
result does not always carry the identifier of the first name-matching
entity. -/
theorem matched_uuid_first_counterexample :
    (([{ name := "a", uuid := "u1", image_type := "T", description := some "dd" },
       { name := "a", uuid := "u2", image_type := "T", description := some "dd" }]
        : List Entity).find? (fun e => "a" == e.name)).map Entity.uuid = some "u1"
    ∧ (get_existing_image_state
        { params0 with image_name := "a", image_type := some "X",
                       image_url := none, image_description := some "y" }
        [{ name := "a", uuid := "u1", image_type := "T", description := some "dd" },
         { name := "a", uuid := "u2", image_type := "T", description := some "dd" }]).2 =
      some "u2" := by
  constructor
  · rfl
  · rfl

/-- C7 witness: on a single name-only match the characterization yields that
entity's uuid. -/
theorem matched_uuid_characterization_witness :
    (get_existing_image_state
      { params0 with image_name := "a", image_type := some "X",
                     image_url := none, image_description := some "y" }
      [{ name := "a", uuid := "u1", image_type := "T", description := some "dd" }]).2 =
      some "u1" := by
  have h := (matched_uuid_characterization
    { params0 with image_name := "a", image_type := some "X",
                   image_url := none, image_description := some "y" }
    [{ name := "a", uuid := "u1", image_type := "T", description := some "dd" }]).2
    (by decide)
  rw [h]
  rfl

/-- A trace without mutating calls filters to nothing under each of the
mutating-call predicates. -/
theorem calls_of_no_mutating (tr : List ApiCall)
    (h : ∀ c ∈ tr, c.isMutating = false) :
    createCalls tr = [] ∧ updateCalls tr = [] ∧ deleteCalls tr = [] ∧
    tr.filter ApiCall.isMutating = [] := by
  unfold createCalls updateCalls deleteCalls
  refine ⟨List.filter_eq_nil_iff.mpr ?_, List.filter_eq_nil_iff.mpr ?_,
          List.filter_eq_nil_iff.mpr ?_, List.filter_eq_nil_iff.mpr ?_⟩ <;>
    · intro c hc
      have hm := h c hc
      cases c <;> simp_all [ApiCall.isMutating, ApiCall.isCreate,
        ApiCall.isUpdate, ApiCall.isDelete]

/-- `_update` issues no create or delete call and exactly one update call on
top of its inherited trace. -/
theorem update_calls_counts (p : Params) (env : Env) (uuid : Option String)
    (tr0 : List ApiCall) :
    createCalls (update p env uuid tr0).1 = createCalls tr0
    ∧ deleteCalls (update p env uuid tr0).1 = deleteCalls tr0
    ∧ (updateCalls (update p env uuid tr0).1).length =
        (updateCalls tr0).length + 1 := by
  unfold update
  dsimp only
  split <;>
    simp [createCalls, updateCalls, deleteCalls, List.filter_append,
      ApiCall.isCreate, ApiCall.isUpdate, ApiCall.isDelete]

/-- The no-op result of a full match: the seed record plus the image state. -/
def noopResult (st : ImageState) : ModuleResult :=
  { initResult with image_state := some st }

/-- Classification flags reported by `get_existing_image_state` come with the
name flag. -/
theorem existing_flags_imp_name (p : Params) (images : List Entity) :
    ((get_existing_image_state p images).1.match_state ||
     (get_existing_image_state p images).1.match_type ||
     (get_existing_image_state p images).1.match_description) = true →
    (get_existing_image_state p images).1.match_name = true := by
  unfold get_existing_image_state
  exact scanImages_flags_imp_name _ _ _ _ _ _ (by intro h; simp [initImageState] at h)

/-- C1 (amended): for state = present (with the spec building succeeding), a
full match yields the no-op path with no mutating call; *any* name match
short of a full match — including a name-match-only result — triggers exactly
one update and no create; and only the complete absence of a name match
performs the create (one create call, no update or delete). -/
theorem present_decision_table (p : Params) (env : Env) (spec : CreatePayload)
    (hspec : (create_image_spec p env).2 = Except.ok spec) :
    ((get_existing_image_state p env.images).1.match_state = true →
       (create p env).2 =
         Except.ok (noopResult (get_existing_image_state p env.images).1) ∧
       (create p env).1.filter ApiCall.isMutating = [])
    ∧ ((get_existing_image_state p env.images).1.match_state = false →
       (get_existing_image_state p env.images).1.match_name = true →
       createCalls (create p env).1 = [] ∧
       deleteCalls (create p env).1 = [] ∧
       (updateCalls (create p env).1).length = 1)
    ∧ ((get_existing_image_state p env.images).1.match_name = false →
       createCalls (create p env).1 = [ApiCall.createImage spec] ∧
       updateCalls (create p env).1 = [] ∧
       deleteCalls (create p env).1 = []) := by
  unfold create
  rcases hcs : create_image_spec p env with ⟨tr, res⟩
  rw [hcs] at hspec
  dsimp only at hspec
  subst hspec
  have hnm : ∀ c ∈ tr, c.isMutating = false := by
    have h := create_image_spec_not_mutating p env
    rw [hcs] at h
    exact h
  have hnml : ∀ c ∈ tr ++ [ApiCall.listImages], c.isMutating = false := by
    intro c hc
    rcases List.mem_append.mp hc with h | h
    · exact hnm c h
    · simp at h
      subst h
      rfl
  refine ⟨fun hfull => ?_, fun hst hname => ?_, fun hname => ?_⟩
  · dsimp only
    rw [if_pos hfull]
    exact ⟨by simp [noopResult], (calls_of_no_mutating _ hnml).2.2.2⟩
  · dsimp only
    rw [if_neg (by simp [hst]), if_pos (by simp [hname])]
    have hc := update_calls_counts p env
      (get_existing_image_state p env.images).2 (tr ++ [ApiCall.listImages])
    have hz := calls_of_no_mutating _ hnml
    refine ⟨?_, ?_, ?_⟩
    · rw [hc.1, hz.1]
    · rw [hc.2.1, hz.2.2.1]
    · rw [hc.2.2, hz.2.1]
      rfl
  · have hforward := existing_flags_imp_name p env.images
    have hsf : (get_existing_image_state p env.images).1.match_state = false := by
      cases h : (get_existing_image_state p env.images).1.match_state
      · rfl
      · exact absurd (hforward (by simp [h])) (by simp [hname])
    have htf : (get_existing_image_state p env.images).1.match_type = false := by
      cases h : (get_existing_image_state p env.images).1.match_type
      · rfl
      · exact absurd (hforward (by simp [h])) (by simp [hname])
    have hdf : (get_existing_image_state p env.images).1.match_description = false := by
      cases h : (get_existing_image_state p env.images).1.match_description
      · rfl
      · exact absurd (hforward (by simp [h])) (by simp [hname])
    dsimp only
    rw [if_neg (by simp [hsf]), if_neg (by simp [hname, htf, hdf])]
    have h1 : (tr ++ [ApiCall.listImages]).filter ApiCall.isCreate = [] :=
      List.filter_eq_nil_iff.mpr (by
        intro a ha
        have := hnml a ha
        cases a <;> simp_all [ApiCall.isMutating, ApiCall.isCreate])
    have h2 : (tr ++ [ApiCall.listImages]).filter ApiCall.isUpdate = [] :=
      List.filter_eq_nil_iff.mpr (by
        intro a ha
        have := hnml a ha
        cases a <;> simp_all [ApiCall.isMutating, ApiCall.isUpdate])
    have h3 : (tr ++ [ApiCall.listImages]).filter ApiCall.isDelete = [] :=
      List.filter_eq_nil_iff.mpr (by
        intro a ha
        have := hnml a ha
        cases a <;> simp_all [ApiCall.isMutating, ApiCall.isDelete])
    split <;>
      · refine ⟨?_, ?_, ?_⟩ <;>
          · simp only [createCalls, updateCalls, deleteCalls,
              List.filter_append, h1, h2, h3]
            rfl

/-- An environment with one existing image matching `params0` by name only
(different type, different description). -/
def envNameOnly : Env :=
  { env0 with images :=
    [{ name := "img", uuid := "u1", image_type := "DISK_IMAGE",
       description := some "other" }] }

/-- The payload `create_image_spec` builds for `params0` against `env0`. -/
def specW : CreatePayload :=
  { name := "img", metadata_name := "img", image_type := "ISO_IMAGE",
    initial_placement_ref_list := none,
    source_uri := some "http://server/isos/img.iso",
    data_source_reference := none, checksum := none, description := "" }

/-- C1 counterexample: a concrete name-match-only result (name equal, type
and description both different) makes the present pass issue an update and
zero creates — not the create the claim requires. -/
theorem present_name_only_counterexample :
    (get_existing_image_state params0 envNameOnly.images).1 =
      { match_state := false, match_name := true, match_type := false,
        match_description := false }
    ∧ createCalls (create params0 envNameOnly).1 = []
    ∧ (updateCalls (create params0 envNameOnly).1).length = 1 := by
  refine ⟨rfl, rfl, rfl⟩

/-- C1 witness: the decision table applied at concrete inputs — a name-only
match updates (no create), and an empty listing creates exactly once. -/
theorem present_decision_table_witness :
    (createCalls (create params0 envNameOnly).1 = [] ∧
     (updateCalls (create params0 envNameOnly).1).length = 1)
    ∧ (createCalls (create params0 env0).1 = [ApiCall.createImage specW] ∧
       updateCalls (create params0 env0).1 = []) := by
  have hb := (present_decision_table params0 envNameOnly specW rfl).2.1
    (by decide) (by decide)
  have hc := (present_decision_table params0 env0 specW rfl).2.2 (by decide)
  exact ⟨⟨hb.1, hb.2.2⟩, ⟨hc.1, hc.2.1⟩⟩

/-- A truthy explicit type short-circuits detection. -/
theorem detect_explicit (p : Params) (t : String)
    (ht : p.image_type = some t) (ht' : t ≠ "") :
    detectImageType p = Except.ok t := by
  unfold detectImageType
  rw [ht]
  simp [optTruthy, ht']

/-- The entity a successful create leaves in the remote listing: name, type
and description exactly as carried by the submitted payload. -/
def createdEntity (p : Params) (env : Env) (t d : String) : Entity :=
  { name := p.image_name, uuid := env.createResult.2, image_type := t,
    description := some d }

/-- The environment after a successful create: the listing additionally
shows the created entity. -/
def envAfterCreate (p : Params) (env : Env) (t d : String) : Env :=
  { env with images := env.images ++ [createdEntity p env t d] }

/-- The result of a successful create: the new uuid and `changed = true`. -/
def createdResult (env : Env) : ModuleResult :=
  { initResult with image_uuid := some env.createResult.2, changed := true }

/-- The image state of a full match found at the head comparison. -/
def fullMatchState : ImageState :=
  { match_state := true, match_name := true, match_type := false,
    match_description := false }

/-- C3 (amended): with an *explicitly supplied* type, a URL source, a
nonempty supplied description and no cluster placement, a present pass that
created the image (task success, no prior name match) is idempotent — the
re-run against the listing extended by the created entity performs zero
mutating calls (its whole trace is one listing call) and reports
`changed = false`. -/
theorem present_rerun_idempotent_explicit (p : Params) (env : Env)
    (t u d : String)
    (ht : p.image_type = some t) (ht' : t ≠ "")
    (hu : p.image_url = some u) (hu' : u ≠ "")
    (hvd : p.vm_disk = none) (hvdu : p.vm_disk_uuid = none)
    (hcl : p.clusters = none)
    (hd : p.image_description = some d)
    (hno : ∀ e ∈ env.images, (p.image_name == e.name) = false)
    (htask : env.taskResult env.createResult.1 = none) :
    (create p env).2 = Except.ok (createdResult env)
    ∧ create p (envAfterCreate p env t d) =
        ([ApiCall.listImages], Except.ok (noopResult fullMatchState)) := by
  have hdet := detect_explicit p t ht ht'
  have hurl : optTruthy p.image_url = true := by
    rw [hu]; exact optTruthy_some u hu'
  have hspec1 := create_image_spec_url p env t hdet hvd hvdu hcl hurl
  have hspec2 := create_image_spec_url p (envAfterCreate p env t d) t hdet hvd hvdu hcl hurl
  have hscan1 : get_existing_image_state p env.images = (initImageState, none) := by
    unfold get_existing_image_state
    exact scanImages_no_match _ _ _ _ _ _ hno
  have hscan2 : get_existing_image_state p (envAfterCreate p env t d).images =
      (fullMatchState, some env.createResult.2) := by
    unfold get_existing_image_state envAfterCreate
    dsimp only
    rw [scanImages_append_no_match _ _ _ _ _ _ _ hno]
    simp [scanImages, createdEntity, ht, hd, initImageState, fullMatchState]
  constructor
  · unfold create
    rw [hspec1]
    dsimp only
    rw [hscan1]
    simp only [initImageState]
    rw [htask]
    simp [createdResult]
  · unfold create
    rw [hspec2]
    dsimp only
    rw [hscan2]
    rfl

/-- The listing after the first (auto-detected) create of `paramsNoType`:
one image of type `ISO_IMAGE` with the empty description sent on create. -/
def envAfterAutoCreate : Env :=
  { env0 with images :=
    [{ name := "img", uuid := "uuid-new", image_type := "ISO_IMAGE",
       description := some "" }] }

/-- C3 counterexample: a present pass whose `image_type` was left unset
(auto-detected `.iso` URL) creates successfully, but its immediate re-run
with the same inputs — type and description unchanged remotely — issues a
mutating update call and reports `changed = true`, not the claimed zero
mutating calls with `changed = false` (the raw `None` parameter is compared
against the stored `ISO_IMAGE`). -/
theorem present_rerun_autodetect_counterexample :
    (create paramsNoType env0).2 = Except.ok (createdResult env0)
    ∧ (updateCalls (create paramsNoType envAfterAutoCreate).1).length = 1
    ∧ (create paramsNoType envAfterAutoCreate).2 =
        Except.ok { initResult with changed := true } :=
  ⟨rfl, rfl, rfl⟩

/-- Parameters with an explicit type and a nonempty description, for which
the re-run really is a no-op. -/
def paramsExplicit : Params := { params0 with image_description := some "nice" }

/-- C3 witness: the amended idempotence applied at a concrete input. -/
theorem present_rerun_idempotent_explicit_witness :
    (create paramsExplicit env0).2 = Except.ok (createdResult env0)
    ∧ create paramsExplicit (envAfterCreate paramsExplicit env0 "ISO_IMAGE" "nice") =
        ([ApiCall.listImages], Except.ok (noopResult fullMatchState)) :=
  present_rerun_idempotent_explicit paramsExplicit env0 "ISO_IMAGE"
    "http://server/isos/img.iso" "nice" rfl (by decide) rfl (by decide)
    rfl rfl rfl rfl (by intro e he; simp [env0] at he) rfl

/-- A requested cluster name resolves when some listed cluster bears it. -/
def resolvable (ents : List ClusterEntity) (c : String) : Bool :=
  ents.any (fun e => e.name == c)

/-- Key membership over pairs equals key membership over the key list. -/
theorem anyFst (d : List (String × String)) (c : String) :
    d.any (fun kv => kv.1 == c) = (d.map Prod.fst).any (fun x => x == c) := by
  induction d with
  | nil => rfl
  | cons kv rest ih => simp [List.any_cons, ih]

/-- `dictInsert` keeps the key list on update and appends the key on fresh
insert. -/
theorem dictInsert_keys (d : List (String × String)) (k v : String) :
    (dictInsert d k v).map Prod.fst =
      if d.any (fun kv => kv.1 == k) then d.map Prod.fst
      else d.map Prod.fst ++ [k] := by
  unfold dictInsert
  by_cases h : (d.any fun kv => kv.1 == k) = true
  · simp only [h, if_true]
    rw [List.map_map]
    apply List.map_congr_left
    intro kv _
    by_cases hk : (kv.1 == k) = true
    · simp [Function.comp, hk, (eq_of_beq hk).symm]
    · simp [Function.comp, hk]
  · simp [h]

/-- After `dictInsert` the key is present. -/
theorem dictInsert_keysHas (d : List (String × String)) (k v : String) :
    (dictInsert d k v).any (fun kv => kv.1 == k) = true := by
  unfold dictInsert
  by_cases h : (d.any fun kv => kv.1 == k) = true
  · simp only [h, if_true]
    obtain ⟨kv, hmem, hkv⟩ := List.any_eq_true.mp h
    refine List.any_eq_true.mpr ⟨(k, v), List.mem_map.mpr ⟨kv, hmem, by simp [hkv]⟩, by simp⟩
  · simp [h]

/-- Keys produced by the inner cluster loop for one requested name. -/
theorem clusterInner_keys (name : String) (ents : List ClusterEntity) :
    ∀ d p2,
      ((clusterInner name ents (d, p2)).1).map Prod.fst =
        (if resolvable ents name then
          (if d.any (fun kv => kv.1 == name) then d.map Prod.fst
           else d.map Prod.fst ++ [name])
         else d.map Prod.fst) := by
  induction ents with
  | nil => intro d p2; simp [clusterInner, resolvable]
  | cons e rest ih =>
    intro d p2
    by_cases he : (e.name == name) = true
    · have hstep : clusterInner name (e :: rest) (d, p2) =
          clusterInner name rest (dictInsert d name e.uuid, p2 ++ [e.uuid]) := by
        unfold clusterInner
        rw [List.foldl_cons]
        simp [he]
      have hres : resolvable (e :: rest) name = true := by
        simp [resolvable, List.any_cons, he]
      rw [hstep, ih, hres]
      simp [dictInsert_keysHas, dictInsert_keys]
    · have hstep : clusterInner name (e :: rest) (d, p2) =
          clusterInner name rest (d, p2) := by
        unfold clusterInner
        rw [List.foldl_cons]
        simp [he]
      have hres : resolvable (e :: rest) name = resolvable rest name := by
        simp [resolvable, List.any_cons, he]
      rw [hstep, ih, hres]

/-- Keys accumulated by the outer cluster loop: the keys already present
followed by the resolvable requested names, for duplicate-free fresh
requests. -/
theorem clusterResolve_keys_aux (ents : List ClusterEntity) (cs : List String) :
    ∀ d p2, cs.Nodup → (∀ c ∈ cs, d.any (fun kv => kv.1 == c) = false) →
      ((cs.foldl (fun acc name => clusterInner name ents acc) (d, p2)).1).map
          Prod.fst =
        d.map Prod.fst ++ cs.filter (resolvable ents) := by
  induction cs with
  | nil => intro d p2 _ _; simp
  | cons c rest ih =>
    intro d p2 hnd hfresh
    rw [List.foldl_cons]
    have hkeys1 := clusterInner_keys c ents d p2
    have hfc : d.any (fun kv => kv.1 == c) = false := hfresh c (by simp)
    rw [hfc] at hkeys1
    have hcnotin : c ∉ rest := (List.nodup_cons.mp hnd).1
    rcases hp : clusterInner c ents (d, p2) with ⟨d1, p3⟩
    rw [hp] at hkeys1
    dsimp only at hkeys1
    by_cases hr : resolvable ents c = true
    · rw [hr] at hkeys1
      simp only [if_true, Bool.false_eq_true, if_false] at hkeys1
      have hfresh' : ∀ c' ∈ rest, d1.any (fun kv => kv.1 == c') = false := by
        intro c' hc'
        rw [anyFst, hkeys1, List.any_append]
        have h1 : (d.map Prod.fst).any (fun x => x == c') = false := by
          rw [← anyFst]
          exact hfresh c' (by simp [hc'])
        have hcc : (c == c') = false := by
          apply beq_eq_false_iff_ne.mpr
          intro hEq
          exact hcnotin (hEq ▸ hc')
        simp [h1, hcc]
      rw [ih d1 p3 (List.nodup_cons.mp hnd).2 hfresh', hkeys1,
          List.filter_cons_of_pos (by simpa using hr), List.append_assoc]
      rfl
    · have hr' : resolvable ents c = false := by simpa using hr
      rw [hr'] at hkeys1
      simp only [Bool.false_eq_true, if_false] at hkeys1
      have hfresh' : ∀ c' ∈ rest, d1.any (fun kv => kv.1 == c') = false := by
        intro c' hc'
        rw [anyFst, hkeys1, ← anyFst]
        exact hfresh c' (by simp [hc'])
      rw [ih d1 p3 (List.nodup_cons.mp hnd).2 hfresh', hkeys1,
          List.filter_cons_of_neg (by simp [hr'])]

/-- Keys of the cluster resolution dict: exactly the resolvable requested
names, in request order, for a duplicate-free request. -/
theorem clusterResolve_keys (ents : List ClusterEntity) (cs : List String)
    (hnd : cs.Nodup) :
    ((clusterResolve cs ents).1).map Prod.fst = cs.filter (resolvable ents) := by
  unfold clusterResolve
  have h := clusterResolve_keys_aux ents cs [] [] hnd (by intro c _; rfl)
  simpa using h

/-- A list with a member failing the predicate filters to a strictly shorter
list. -/
theorem filter_length_lt_of_witness (pB : String → Bool) (cs : List String)
    (c : String) (hc : c ∈ cs) (hp : pB c = false) :
    (cs.filter pB).length < cs.length := by
  induction cs with
  | nil => simp at hc
  | cons a rest ih =>
    rcases List.mem_cons.mp hc with h | h
    · subst h
      rw [List.filter_cons_of_neg (by simp [hp])]
      have := List.length_filter_le pB rest
      simp only [List.length_cons]
      omega
    · by_cases ha : pB a = true
      · rw [List.filter_cons_of_pos ha]
        have := ih h
        simp only [List.length_cons]
        omega
      · rw [List.filter_cons_of_neg (by simp [ha])]
        have := ih h
        have hle := List.length_filter_le pB rest
        simp only [List.length_cons]
        omega

/-- Erasing keys that do not include the head leaves the head in place. -/
theorem removeEach_cons_not_mem (ks : List String) (a : String)
    (l : List String) (h : a ∉ ks) :
    removeEach ks (a :: l) = a :: removeEach ks l := by
  induction ks generalizing l with
  | nil => rfl
  | cons k ks' ih =>
    have hka : ¬(a == k) = true := by
      intro hEq
      exact h (by simp [eq_of_beq hEq])
    have h1 : removeEach (k :: ks') (a :: l) = removeEach ks' ((a :: l).erase k) := rfl
    have h2 : removeEach (k :: ks') l = removeEach ks' (l.erase k) := rfl
    rw [h1, List.erase_cons_tail hka,
        ih (l.erase k) (fun hm => h (List.mem_cons_of_mem _ hm)), h2]

/-- Removing one occurrence of each name passing the predicate from a
duplicate-free list leaves exactly the names failing it. -/
theorem removeEach_filter (cs : List String) (pB : String → Bool)
    (h : cs.Nodup) :
    removeEach (cs.filter pB) cs = cs.filter (fun c => !(pB c)) := by
  induction cs with
  | nil => rfl
  | cons c rest ih =>
    have hnd := List.nodup_cons.mp h
    by_cases hc : pB c = true
    · rw [List.filter_cons_of_pos hc]
      have htail := ih hnd.2
      unfold removeEach at htail ⊢
      rw [List.foldl_cons, List.erase_cons_head, htail,
          List.filter_cons_of_neg (by simp [hc])]
    · rw [List.filter_cons_of_neg (by simp [hc])]
      have hcnot : c ∉ rest.filter pB := fun hmem => hnd.1 (List.mem_of_mem_filter hmem)
      rw [removeEach_cons_not_mem _ _ _ hcnot, ih hnd.2,
          List.filter_cons_of_pos (by simp [hc])]

/-- With a duplicate-free nonempty request containing an unresolved name, the
cluster step fails (for any payload) with the message listing exactly the
unresolved names in request order. -/
theorem clustersStep_fail (p : Params) (env : Env) (cs : List String)
    (hcl : p.clusters = some cs) (hne : cs ≠ [])
    (hnd : cs.Nodup) (hx : ∃ c ∈ cs, resolvable env.clusters c = false) :
    ∀ pl, clustersStep p env pl =
      ([ApiCall.listClusters],
       Except.error ("Could not find cluster(s) with name " ++
         pyStrList (cs.filter (fun c => !(resolvable env.clusters c))))) := by
  intro pl
  have hkeys := clusterResolve_keys env.clusters cs hnd
  have hlen : (clusterResolve cs env.clusters).1.length ≠ cs.length := by
    obtain ⟨c, hc, hcf⟩ := hx
    have hlt := filter_length_lt_of_witness (resolvable env.clusters) cs c hc hcf
    have hmap : ((clusterResolve cs env.clusters).1).length =
        (cs.filter (resolvable env.clusters)).length := by
      rw [← hkeys, List.length_map]
    omega
  unfold clustersStep
  rw [hcl]
  dsimp only
  rw [if_pos hne, if_pos hlen, hkeys, removeEach_filter cs _ hnd]

/-- C4 (amended): for a duplicate-free requested cluster list with at least
one unresolved name (and an explicit image type, so detection is skipped),
the create fails before any mutating call — the whole trace is the cluster
listing — with a message listing exactly the unresolved requested names in
request order.  With duplicates in the request the failure message is instead
built by destructively removing one occurrence of each resolved name from the
request, and can name resolved clusters. -/
theorem cluster_failure_lists_unresolved (p : Params) (env : Env)
    (cs : List String) (t : String)
    (ht : p.image_type = some t) (ht' : t ≠ "")
    (hvd : p.vm_disk = none) (hvdu : p.vm_disk_uuid = none)
    (hcl : p.clusters = some cs) (hne : cs ≠ []) (hnd : cs.Nodup)
    (hx : ∃ c ∈ cs, resolvable env.clusters c = false) :
    create p env =
      ([ApiCall.listClusters],
       Except.error ("Could not find cluster(s) with name " ++
         pyStrList (cs.filter (fun c => !(resolvable env.clusters c))))) := by
  have hdet := detect_explicit p t ht ht'
  have hcsf := clustersStep_fail p env cs hcl hne hnd hx
  have hspec : create_image_spec p env =
      ([ApiCall.listClusters],
       Except.error ("Could not find cluster(s) with name " ++
         pyStrList (cs.filter (fun c => !(resolvable env.clusters c))))) := by
    unfold create_image_spec vmDiskStep
    rw [hdet, hvd, hvdu]
    simp only [optTruthy_none, Bool.false_and, Bool.false_eq_true, if_false]
    rw [hcsf]
    rfl
  exact create_of_spec_error p env _ _ hspec

/-- Parameters requesting the duplicated cluster list `["A", "A", "B"]`. -/
def paramsDupClusters : Params :=
  { params0 with clusters := some ["A", "A", "B"] }

/-- An environment listing exactly one cluster, named `A`. -/
def envClusterA : Env :=
  { env0 with clusters := [{ name := "A", uuid := "uA" }] }

/-- C4 counterexample: requesting `["A", "A", "B"]` when only `A` resolves
fails with a message listing `['A', 'B']` — naming the resolved cluster `A`,
not the exact unresolved set `['B']` the claim requires. -/
theorem cluster_failure_duplicates_counterexample :
    resolvable envClusterA.clusters "A" = true
    ∧ (create paramsDupClusters envClusterA).2 =
        Except.error "Could not find cluster(s) with name ['A', 'B']" :=
  ⟨rfl, rfl⟩

/-- Parameters requesting the duplicate-free cluster list `["A", "B"]`. -/
def paramsTwoClusters : Params :=
  { params0 with clusters := some ["A", "B"] }

/-- C4 witness: requesting `["A", "B"]` when only `A` resolves fails before
any mutating call with a message listing exactly `['B']`. -/
theorem cluster_failure_lists_unresolved_witness :
    create paramsTwoClusters envClusterA =
      ([ApiCall.listClusters],
       Except.error "Could not find cluster(s) with name ['B']") := by
  have h := cluster_failure_lists_unresolved paramsTwoClusters envClusterA
    ["A", "B"] "ISO_IMAGE" rfl (by decide) rfl rfl rfl (by decide) (by decide)
    ⟨"B", by decide, by decide⟩
  exact h

/-- C10: in check mode the module exits immediately with `changed = false`
and performs no API interaction of any kind, for every input. -/
theorem check_mode_no_api (p : Params) (state : String) (env : Env) :
    mainRun p true state env = ([], Except.ok initResult) ∧
    initResult.changed = false :=
  ⟨rfl, rfl⟩

/-- C6: the update spec submitted by `_update` carries the empty string as
description when none is supplied (clearing the remote value), and exactly
the supplied description otherwise; exactly one update call is issued. -/
theorem update_description_submitted (p : Params) (env : Env)
    (uuid : Option String) :
    submittedUpdateDescs (update p env uuid []).1 =
      [match p.image_description with | none => "" | some d => d] := by
  unfold update submittedUpdateDescs updateSpecOf
  rcases hd : p.image_description with _ | d
  · simp only [hd, optTruthy]
    split <;> simp
  · by_cases hd0 : d = ""
    · subst hd0
      simp only [hd, optTruthy]
      split <;> simp
    · simp only [hd, optTruthy]
      split <;> simp [hd0]

/-- C8: with `image_type` absent and no URL, the spec builder still runs URL
auto-detection first (the path of `urlparse(None)` is empty) and the create
fails at the detection step with the unidentifiable-type message, before any
call at all — so a vm-disk source never reaches the branch that would set
`DISK_IMAGE`. -/
theorem vm_source_without_type_fails_detection (p : Params) (env : Env)
    (ht : p.image_type = none) (hu : p.image_url = none) :
    create p env =
      ([], Except.error "Unable to identify image_type, specify the value manually") := by
  unfold create create_image_spec detectImageType
  rw [ht, hu]
  rfl

/-- C8 witness: a concrete vm-disk create with no explicit type fails at
detection with no API call. -/
theorem vm_source_without_type_fails_detection_witness :
    create
      { image_name := "img", image_type := none, image_url := none,
        vm_disk := some "vm1", vm_disk_uuid := none, image_uuid := none,
        image_description := none, image_checksum := none, clusters := none }
      { images := [], vms := [{ name := "vm1", disk_uuids := ["d1"] }],
        clusters := [], createResult := ("t1", "u1"), updateTask := "t2",
        deleteTask := fun _ => "t3",
        getImage := fun _ => { metadata_uuid := "u", image_type := none, description := "" },
        taskResult := fun _ => none } =
      ([], Except.error "Unable to identify image_type, specify the value manually") :=
  vm_source_without_type_fails_detection _ _ rfl rfl

end NutanixImage
